import Mathlib

/-!
Verification of the power-simulation repository (asi-uniovi/power-simulation).

This file shallowly embeds the parts of the source under `src/simulation/`
that the verified claims are about:

  * `src/simulation/distribution.py`  (EmpiricalDistribution)
  * `src/simulation/model.py`         (Model, optimal timeout search)
  * `src/simulation/static.py`        (previous_hour, timestamp_to_day, weight,
                                       weighted_user_satisfaction)
  * `src/simulation/activity_distribution.py`
                                      (trace parsing, merging, the
                                       previous-hour fallback walk,
                                       global_idle_timeout)
  * `src/simulation/stats.py`         (removed_inactivity)
  * `src/simulation/simulation.py`    (run validation)
  * `src/simulation/computer.py`      (Computer state machine)
  * `src/simulation/user.py`          (voluntary shutdown decision)

Python floats are embedded as rationals; machine randomness is passed in
explicitly (a uniform draw in [0,1) as a rational, a choice index as a
natural number).  Fallible code is embedded with `Option`/`Except`.
-/

namespace PowerSim

/-! ## numpy helpers

numpy aggregate functions used by the code, embedded over `List ℚ`.
`numpy.mean []` is NaN in Python; the embedding returns 0 there (division by
zero in ℚ), all uses below are on non-empty lists. -/

/-- Embeds `numpy.mean(xs)`: sum divided by length. -/
def npMean (xs : List ℚ) : ℚ := xs.sum / xs.length

/-- Insertion of one element into an ascending sorted list (helper for the
embedding of the in-place `sort()` used by numpy and the spline fit). -/
def insertSorted (x : ℚ) : List ℚ → List ℚ
  | [] => [x]
  | y :: ys => if x ≤ y then x :: y :: ys else y :: insertSorted x ys

/-- Ascending sort of a rational list (insertion sort). -/
def sortAsc (xs : List ℚ) : List ℚ := xs.foldr insertSorted []

/-- Embeds `numpy.median(xs)`: middle element of the sorted list for odd
length, average of the two middle elements for even length. -/
def npMedian (xs : List ℚ) : ℚ :=
  let s := sortAsc xs
  let n := s.length
  if n % 2 = 1 then s.getD (n / 2) 0
  else (s.getD (n / 2 - 1) 0 + s.getD (n / 2) 0) / 2

/-- Embeds the square of `numpy.std(xs)` (the population variance).
`numpy.std` itself is the square root of this value; the square is kept so
that the embedding stays in exact rational arithmetic. -/
def npStdSq (xs : List ℚ) : ℚ :=
  (xs.map (fun x => (x - npMean xs) ^ 2)).sum / xs.length

/-! ## static.py -/

/-- Embeds `static.weight(x, ip, fp)`:
`numpy.maximum(0.0, numpy.minimum(1.0, (ip - x) / (ip - fp)))`. -/
def weight (x ip fp : ℚ) : ℚ := max 0 (min 1 ((ip - x) / (ip - fp)))

/-- Embeds `static.weighted_user_satisfaction(t, timeout, threshold)`:
`numpy.where(t < timeout, 1.0, weight(t - timeout, 60, threshold))` at a
scalar `t`. -/
def weighted_user_satisfaction (t timeout threshold : ℚ) : ℚ :=
  if t < timeout then 1 else weight (t - timeout) 60 threshold

/-- Embeds `static.previous_hour(day, hour)`: steps one hour back with
wraparound at day 0 hour 0.  The Python code works on unbounded ints, hence
the embedding over ℤ. -/
def previous_hour (d h : ℤ) : ℤ × ℤ :=
  let h2 := h - 1
  if h2 < 0 then
    let d2 := d - 1
    if d2 < 0 then (6, 23) else (d2, 23)
  else (d, h2)

/-- Embeds `static.timestamp_to_day(timestamp)`: the (day-of-week,
hour-of-day) pair of a simulation timestamp, one week being 604800 seconds
and one day 86400.  Python floor division and modulo on floats are embedded
with `Int.floor` on ℚ. -/
def timestamp_to_day (ts : ℚ) : ℤ × ℤ :=
  let weekRem := ts - 604800 * ⌊ts / 604800⌋
  let dayRem := ts - 86400 * ⌊ts / 86400⌋
  (⌊weekRem / 86400⌋, ⌊dayRem / 3600⌋)

/-! ## distribution.py -/

/-- Piecewise linear interpolation of the sorted sample at parameter
`u ∈ [0,1]`, with nodes at `i / (n - 1)`. This is what
`scipy.interpolate.splrep(linspace(0, 1, n), data, k=1)` followed by
`BSpline(..., extrapolate=False)` computes; outside `[0,1]` the spline
returns NaN, embedded as `none`. -/
def splineEval (data : List ℚ) (u : ℚ) : Option ℚ :=
  let s := sortAsc data
  let n := s.length
  if u < 0 ∨ 1 < u then none
  else
    let pos := u * (n - 1)
    let i := min (⌊pos⌋.toNat) (n - 2)
    some (s.getD i 0 + (s.getD (i + 1) 0 - s.getD i 0) * (pos - i))

/-- Embeds `EmpiricalDistribution.rvs` (`src/simulation/distribution.py`,
lines 55-61).  `choiceIdx` stands for the uniform index drawn by
`numpy.random.choice` and `u` for the uniform number in [0,1) drawn by
`numpy.random.random`.  The result pairs the sampled value (`none` embeds
the ValueError `numpy.random.choice` raises on an empty sample) with a flag
telling whether the spline fit was constructed and evaluated. -/
def rvs (data : List ℚ) (choiceIdx : ℕ) (u : ℚ) : Option ℚ × Bool :=
  if data.length < 2 then
    (data.get? (choiceIdx % data.length), false)
  else
    (splineEval data u, true)

/-! ## simulation.py run validation -/

/-- Embeds the first guard of `Simulation.__validate_results`
(`src/simulation/simulation.py`, line 126): the Python chained comparison
`0.99 > val1 > 1.01`, which requires `val1 < 0.99` and `val1 > 1.01` at the
same time. -/
def validation_total_time_warns (val1 : ℚ) : Bool :=
  decide ((99 : ℚ) / 100 > val1 ∧ val1 > (101 : ℚ) / 100)

/-- Embeds the computation of `val1` in `Simulation.__validate_results`
(lines 119-124): the sum of USER_SHUTDOWN_TIME, ACTIVITY_TIME and
INACTIVITY_TIME over all computers, divided by the simulation time and by
the number of users. -/
def validation_val1 (ust at_ it simulation_time users_num : ℚ) : ℚ :=
  (ust + at_ + it) / simulation_time / users_num

/-- Embeds the second guard of `Simulation.__validate_results` (line 129):
warn when the AUTO_SHUTDOWN_TIME sum exceeds the INACTIVITY_TIME sum. -/
def validation_auto_shutdown_warns (ast it : ℚ) : Bool := decide (ast > it)

/-! ## model.py -/

/-- Embeds `Model` (`src/simulation/model.py`): the four data collections of
one hourly bucket.  The three `EmpiricalDistribution` members are kept as
their sample lists; `off_fraction` is the plain float list.  A missing
constructor argument (Python `None`) is embedded as the empty list. -/
structure Model where
  inactivity : List ℚ
  activity : List ℚ
  off_duration : List ℚ
  off_fraction : List ℚ
  deriving DecidableEq, Repr

/-- Modelled from the spec: `EmpiricalDistribution.is_complete` is referenced
by `Model.is_complete` (`model.py` line 59) but `src/simulation/
distribution.py` defines no such member (the attribute is missing from the
tree).  Section 3 of the spec fixes its meaning: `is_complete` holds iff the
inactivity distribution has at least one sample. -/
def Model.is_complete (m : Model) : Bool := !m.inactivity.isEmpty

/-- A Python value handed to `EmpiricalDistribution.extend` as its `other`
argument: either an actual distribution (which has a `data` attribute) or a
plain Python list (which has none).  `Model.extend` passes a list. -/
inductive ExtendArg
  | dist (data : List ℚ)
  | pylist (members : List (List ℚ))
  deriving DecidableEq, Repr

/-- The attribute access `other.data` inside `EmpiricalDistribution.extend`:
it succeeds on a distribution and raises AttributeError on a plain list. -/
def dataAttr : ExtendArg → Except String (List ℚ)
  | ExtendArg.dist d => Except.ok d
  | ExtendArg.pylist _ =>
    Except.error "AttributeError: list object has no attribute data"

/-- Embeds `EmpiricalDistribution.extend` (`distribution.py` lines 63-68):
`numpy.concatenate((self.__data, other.data))`.  The `other.data` attribute
access is evaluated while the argument tuple is built, so it raises before
any concatenation when `other` is a list (`multi_extend`, which would
accept an iterable, is never called by `Model.extend`). -/
def ed_extend (selfData : List ℚ) (other : ExtendArg) : Except String (List ℚ) :=
  (dataAttr other).map (fun od => selfData ++ od)

/-- Embeds `Model.extend(others)` (`model.py` lines 109-116): each of the
three distributions is extended with the LIST of the corresponding
distributions of the others, so the very first `ed_extend` call raises
AttributeError.  The later `off_fraction` line (which would nest each
others list as one element of `self.__off_fraction` rather than union the
samples) and the memo invalidation are never reached; `off_fraction` is
left unchanged here. -/
def Model.extend (m : Model) (others : List Model) : Except String Model := do
  let iv ← ed_extend m.inactivity (ExtendArg.pylist (others.map Model.inactivity))
  let av ← ed_extend m.activity (ExtendArg.pylist (others.map Model.activity))
  let ov ← ed_extend m.off_duration (ExtendArg.pylist (others.map Model.off_duration))
  pure { inactivity := iv, activity := av, off_duration := ov,
         off_fraction := m.off_fraction }

/-- The model `self.__model_builder()` creates for a merge pass: every
distribution is built on Python `None` (embedded as the empty list, never
read past the failing attribute access) and `off_fraction or [0.0]` yields
`[0.0]` (`model.py` lines 43-46). -/
def freshModel : Model := ⟨[], [], [], [0]⟩

/-- Configuration values consumed by `Model`: the inactivity domain bounds
and the two satisfaction parameters. -/
structure Params where
  xmin : ℚ
  xmax : ℚ
  threshold : ℚ
  target : ℚ
  deriving DecidableEq, Repr

/-- Embeds the local function `f` of `Model.__optimal_timeout_search`
(`model.py` lines 128-132): the mean weighted user satisfaction of the
inactivity sample at timeout `x`, times 100, minus the target. -/
def fObj (data : List ℚ) (threshold target x : ℚ) : ℚ :=
  (data.map (fun t => weighted_user_satisfaction t x threshold)).sum
    / data.length * 100 - target

/-- Embeds `Model.__optimal_timeout_search` (`model.py` lines 125-142).
`scipy.optimize.brentq(f, xmin, xmax)` raises ValueError exactly when
`f(xmin)` and `f(xmax)` have the same strict sign (no bracket); the code
then returns `satisfaction_threshold` when `f(xmax) > f(xmin)` and `xmin`
otherwise.  The bracketed numeric root iteration itself is floating-point
and is not modelled: a successful `brentq` call is embedded as `none`. -/
def optimal_timeout_search (m : Model) (p : Params) : Option ℚ :=
  let f := fObj m.inactivity p.threshold p.target
  if (0 < f p.xmin ∧ 0 < f p.xmax) ∨ (f p.xmin < 0 ∧ f p.xmax < 0) then
    some (if f p.xmax > f p.xmin then p.threshold else p.xmin)
  else
    none

/-- Embeds `Model.optimal_idle_timeout` (`model.py` lines 118-123): the
search result capped at `satisfaction_threshold` (memoization has no
observable effect in a pure embedding). -/
def optimal_idle_timeout (m : Model) (p : Params) : Option ℚ :=
  (optimal_timeout_search m p).map (fun t => min t p.threshold)

/-! ## activity_distribution.py: grids, merges, fallback walk -/

/-- The per-computer bucket dictionary `{day: {hour: Model}}` of
`ActivityDistributionBase.__models`, flattened to an association list keyed
by the (day, hour) pair, in insertion order. -/
abbrev Buckets := List ((ℤ × ℤ) × Model)

/-- The whole `__models` mapping: computer id to its bucket dictionary. -/
abbrev ModelGrid := List (String × Buckets)

/-- Embeds `ActivityDistributionBase.__get(cid, day, hour)` (lines 395-400):
dictionary lookup, `None` on a missing key. -/
def adGet (g : ModelGrid) (cid : String) (d h : ℤ) : Option Model :=
  (g.lookup cid).bind (fun bs => bs.lookup (d, h))

/-- The models of all computers at one (day, hour) slot, in computer
iteration order (the inner `append` loop of `__merge_per_hour`). -/
def slotModels (g : ModelGrid) (k : ℤ × ℤ) : List Model :=
  g.filterMap (fun cb => cb.2.lookup k)

/-- Every (day, hour) key present for any computer, in iteration order
(duplicates are harmless: all copies carry the same merged model, and a
dictionary lookup reads the first). -/
def allSlotKeys (g : ModelGrid) : List (ℤ × ℤ) :=
  (g.map (fun cb => cb.2.map Prod.fst)).flatten

/-- The full 7 times 24 slot grid `{d: {h: ...} for h in range(24)} for d in
range(7)`. -/
def allWeekSlots : List (ℤ × ℤ) :=
  (List.range 7).flatMap (fun d => (List.range 24).map (fun h => ((d : ℤ), (h : ℤ))))

/-- The second loop of `__merge_per_hour` (lines 360-364): for each
collected (day, hour) slot, build a fresh model and call `Model.extend` on
the list of ALL computers models at that slot.  The first `extend` call
raises AttributeError, aborting the pass. -/
def mergeSlotLoop (g : ModelGrid) : List (ℤ × ℤ) → Except String Buckets
  | [] => Except.ok []
  | k :: ks => do
    let m ← Model.extend freshModel (slotModels g k)
    let rest ← mergeSlotLoop g ks
    pure ((k, m) :: rest)

/-- Embeds `ActivityDistributionBase.__merge_per_hour` (lines 352-366): it
tries to merge, for every (day, hour) slot, the models of ALL computers at
that slot into one fresh model and to assign the resulting slot-indexed
dictionary to every computer; the first `Model.extend` call raises, so on
any grid with at least one bucket the pass crashes the load instead. -/
def merge_per_hour (g : ModelGrid) : Except String ModelGrid :=
  (mergeSlotLoop g (allSlotKeys g)).map (fun merged =>
    g.map (fun cb => (cb.1, merged)))

/-- The loop of `__merge_per_pc` (lines 370-379): for each computer, build
a fresh model, call `Model.extend` on the list of ALL that computers models
across its hours, and install the result at each of the 168 slots.  The
first `extend` call raises, aborting the pass. -/
def mergePcLoop : ModelGrid → Except String ModelGrid
  | [] => Except.ok []
  | cb :: rest => do
    let m ← Model.extend freshModel (cb.2.map Prod.snd)
    let restG ← mergePcLoop rest
    pure ((cb.1, allWeekSlots.map (fun k => (k, m))) :: restG)

/-- Embeds `ActivityDistributionBase.__merge_per_pc` (lines 368-380). -/
def merge_per_pc (g : ModelGrid) : Except String ModelGrid := mergePcLoop g

/-- Embeds `ActivityDistributionBase.__merge_per_hour_and_pc` (lines
382-393): one `Model.extend` call over every computers models at every
hour, whose result would be installed at all 168 slots of every computer;
the call raises AttributeError unconditionally (even an empty list argument
has no `data` attribute). -/
def merge_per_hour_and_pc (g : ModelGrid) : Except String ModelGrid :=
  (Model.extend freshModel ((g.map (fun cb => cb.2.map Prod.snd)).flatten)).map
    (fun m => g.map (fun cb => (cb.1, allWeekSlots.map (fun k => (k, m)))))

/-- The backward walk loop of `__distribution_for_hour` (lines 261-268).
`fuel` is the number of backward steps the loop may still take: the Python
counter starts at 0 and the loop bails out once `previous_count > 168`,
which allows 169 steps, so the walk is entered with fuel 169.  Each step
moves to the previous hour and returns the model found there when it is
complete. -/
def walkAux (get : ℤ × ℤ → Option Model) : ℕ → ℤ × ℤ → Option Model
  | 0, _ => none
  | fuel + 1, s =>
    let s2 := previous_hour s.1 s.2
    match get s2 with
    | some m => if m.is_complete then some m else walkAux get fuel s2
    | none => walkAux get fuel s2

/-- Embeds `ActivityDistributionBase.__distribution_for_hour` (lines
256-271) for a fixed computer, `get` being `__get` at that computer: the
exact slot when complete, otherwise the backward walk with up to 169 steps,
`none` standing for the logged "no model" outcome.  The `setdefault` caching
of a successful fallback never replaces an existing (incomplete) bucket and
does not change the value returned by this lookup, so it has no observable
effect here. -/
def distribution_for_hour (get : ℤ × ℤ → Option Model) (d h : ℤ) : Option Model :=
  match get (d, h) with
  | some m => if m.is_complete then some m else walkAux get 169 (d, h)
  | none => walkAux get 169 (d, h)

/-- Instrumented variant of `walkAux` recording every slot the loop reads,
in order. -/
def walkAuxVisits (get : ℤ × ℤ → Option Model) : ℕ → ℤ × ℤ → List (ℤ × ℤ)
  | 0, _ => []
  | fuel + 1, s =>
    let s2 := previous_hour s.1 s.2
    s2 :: (match get s2 with
           | some m => if m.is_complete then [] else walkAuxVisits get fuel s2
           | none => walkAuxVisits get fuel s2)

/-- All slots read by one `__distribution_for_hour` lookup, starting with
the requested slot. -/
def lookupVisits (get : ℤ × ℤ → Option Model) (d h : ℤ) : List (ℤ × ℤ) :=
  (d, h) :: (match get (d, h) with
             | some m => if m.is_complete then [] else walkAuxVisits get 169 (d, h)
             | none => walkAuxVisits get 169 (d, h))

/-! ## activity_distribution.py: global_idle_timeout -/

/-- The value `ActivityDistributionBase.global_idle_timeout` actually
returns (line 142-144): the triple of `numpy.mean`, `numpy.median` and
`numpy.std` of the collected per-bucket timeouts.  The third component is
kept squared (`npStdSq`) so the embedding stays rational; `numpy.std` is its
square root. -/
structure TimeoutSummary where
  mean : ℚ
  median : ℚ
  stdSq : ℚ
  deriving DecidableEq, Repr

/-- The timeout collection loop of
`ActivityDistributionBase.global_idle_timeout` (lines 128-141): for every
(cid, day, hour) bucket present in `__models`, resolve a model through the
previous-hour walk and collect its `optimal_idle_timeout`.  Buckets whose
timeout search would enter the numeric `brentq` iteration are not modelled
(`optimal_idle_timeout` is `none` there) and are skipped; no input used
below has such a bucket. -/
def bucketTimeouts (g : ModelGrid) (p : Params) : List ℚ :=
  (g.map (fun cb =>
    cb.2.filterMap (fun km =>
      (distribution_for_hour (fun s => adGet g cb.1 s.1 s.2) km.1.1 km.1.2).bind
        (fun m => optimal_idle_timeout m p)))).flatten

/-- Embeds `ActivityDistributionBase.global_idle_timeout` (lines 128-145):
the summary TRIPLE `(numpy.mean, numpy.median, numpy.std)` of the collected
per-bucket timeouts is built and returned, despite the declared `-> float`
annotation (the third component is kept squared, see `TimeoutSummary`). -/
def global_idle_timeout (g : ModelGrid) (p : Params) : TimeoutSummary :=
  ⟨npMean (bucketTimeouts g p), npMedian (bucketTimeouts g p),
   npStdSq (bucketTimeouts g p)⟩

/-! ## stats.py: removed_inactivity -/

/-- The Python guard `if i > timeout` of `Stats.removed_inactivity` when
`timeout` is the summary triple returned by `global_idle_timeout()`: numpy
broadcasts the comparison to a three-element boolean array, and taking the
truth value of such an array raises ValueError whatever the numbers are. -/
def npTruthOfTripleCompare (_i : ℚ) (_ts : TimeoutSummary) : Except String Bool :=
  Except.error "ValueError: the truth value of an array with more than one element is ambiguous"

/-- Embeds `Stats.removed_inactivity` (`src/simulation/stats.py`, lines
85-93) in a standard (non fleet-generator) run, where `_idle_timeout()`
returns `training_distribution.global_idle_timeout()`, the summary triple.
On an empty histogram both sums are zero and the caught ZeroDivisionError
yields 0.0; on a non-empty histogram the first evaluation of the filter
guard `i > self._idle_timeout()` raises, so the continuation summing
`i - timeout` over the filtered samples is never reached. -/
def removed_inactivity (hist : List ℚ) (ts : TimeoutSummary) : Except String ℚ :=
  match hist with
  | [] => Except.ok 0
  | i :: _ => (npTruthOfTripleCompare i ts).bind (fun _ => Except.ok 0)

/-! ## activity_distribution.py: trace parsing -/

/-- The four interval types of a trace record. -/
inductive TraceType
  | activityIntervals
  | inactivityIntervals
  | offIntervals
  | offFrequencies
  deriving DecidableEq, Repr

/-- One element of a records `data` list: a (day, hour) slot and its raw
interval values.  The weekday name and the hour string are embedded already
decoded to numbers (`DAYS[...]` and `int(...)`). -/
structure TraceEntry where
  day : ℤ
  hour : ℤ
  intervals : List ℚ
  deriving DecidableEq, Repr

/-- One trace record: `{PC: ..., Type: ..., data: [...]}`. -/
structure TraceRecord where
  pc : String
  ttype : TraceType
  data : List TraceEntry
  deriving DecidableEq, Repr

/-- Embeds `ActivityDistributionBase.__filter` (lines 326-332): inactivity
intervals are kept inside `[xmin, xmax]`, and every type except the off
frequencies drops non-positive values. -/
def filterIntervals (p : Params) (t : TraceType) (data : List ℚ) : List ℚ :=
  let d1 := if t = TraceType.inactivityIntervals then
              data.filter (fun i => decide (p.xmin ≤ i ∧ i ≤ p.xmax))
            else data
  if t ≠ TraceType.offFrequencies then d1.filter (fun i => decide (0 < i)) else d1

/-- The per-computer dictionary `{t[Type]: t[data] for t in trace}` built in
`__parse_trace` (line 298): for each type, the data list of the LAST record
of that type (a dict comprehension keeps the last duplicate). -/
def typeDict (recs : List TraceRecord) (t : TraceType) : Option (List TraceEntry) :=
  ((recs.filter (fun r => r.ttype = t)).getLast?).map (fun r => r.data)

/-- The filtered content of `histogram[day][hour][t]` built by the first
loop of `__parse_model` (lines 309-314): the last entry of type `t` at that
slot wins (plain dictionary assignment overwrites). -/
def bucketData (p : Params) (recs : List TraceRecord) (d h : ℤ) (t : TraceType) :
    Option (List ℚ) :=
  (typeDict recs t).bind (fun entries =>
    ((entries.filter (fun e => decide (e.day = d ∧ e.hour = h))).getLast?).map
      (fun e => filterIntervals p t e.intervals))

/-- The list of the four trace types, for iteration. -/
def allTraceTypes : List TraceType :=
  [TraceType.activityIntervals, TraceType.inactivityIntervals,
   TraceType.offIntervals, TraceType.offFrequencies]

/-- The (day, hour) keys over which the model-building loop of
`__parse_model` iterates: every slot mentioned by any entry of any type of
this computer (list order may differ from the Python dictionary insertion
order; only membership matters for success and for the resulting grid). -/
def bucketKeys (recs : List TraceRecord) : List (ℤ × ℤ) :=
  ((allTraceTypes.filterMap (typeDict recs)).flatten).map (fun e => (e.day, e.hour))

/-- Embeds the model-building loop of `__parse_model` (lines 315-324): each
(day, hour) bucket reads all four types from the histogram dictionary with
plain indexing, in the order of the `Model` constructor call, so the first
type with no entry at that slot raises KeyError. -/
def buildModels (p : Params) (recs : List TraceRecord) :
    List (ℤ × ℤ) → Except String (List ((ℤ × ℤ) × Model))
  | [] => Except.ok []
  | k :: ks =>
    match bucketData p recs k.1 k.2 TraceType.inactivityIntervals with
    | none => Except.error "KeyError: InactivityIntervals"
    | some iv =>
      match bucketData p recs k.1 k.2 TraceType.activityIntervals with
      | none => Except.error "KeyError: ActivityIntervals"
      | some av =>
        match bucketData p recs k.1 k.2 TraceType.offIntervals with
        | none => Except.error "KeyError: OffIntervals"
        | some ov =>
          match bucketData p recs k.1 k.2 TraceType.offFrequencies with
          | none => Except.error "KeyError: OffFrequencies"
          | some fv =>
            (buildModels p recs ks).map (fun g => (k, Model.mk iv av ov fv) :: g)

/-- Embeds `ActivityDistributionBase.__parse_model` (lines 303-324). -/
def parse_model (p : Params) (recs : List TraceRecord) :
    Except String Buckets :=
  buildModels p recs (bucketKeys recs)

/-- The computer ids retained by `__parse_trace` (lines 291-296): records
with `PC == "_Total"` are dropped, the rest are grouped by PC.  Python
sorts the ids; the embedding keeps first-appearance order, which only
permutes the result list.  The duplicate-PC ValueError check of lines
299-300 can never fire after grouping. -/
def tracePCs (records : List TraceRecord) : List String :=
  ((records.filter (fun r => r.pc ≠ "_Total")).map (fun r => r.pc)).dedup

/-- The records of one computer, in trace order (Python sorts by PC with a
stable sort, so each groups records keep their original order). -/
def recordsOf (records : List TraceRecord) (pc : String) : List TraceRecord :=
  records.filter (fun r => r.pc = pc ∧ r.pc ≠ "_Total")

/-- The per-computer loop of `__parse_trace`: parse each computers model
grid in turn; the first KeyError aborts the whole load. -/
def parseTraceLoop (p : Params) (records : List TraceRecord) :
    List String → Except String ModelGrid
  | [] => Except.ok []
  | pc :: pcs =>
    match parse_model p (recordsOf records pc) with
    | Except.error e => Except.error e
    | Except.ok g => (parseTraceLoop p records pcs).map (fun rest => (pc, g) :: rest)

/-- Embeds `ActivityDistributionBase.__parse_trace` (lines 285-301) up to
the merge pass: drop `_Total`, group by PC and parse each retained
computers model grid; an uncaught KeyError halts the program before any
simulation runs. -/
def parse_trace (p : Params) (records : List TraceRecord) :
    Except String ModelGrid :=
  parseTraceLoop p records (tracePCs records)

/-- The set of PC values reported by one interval type (the claims "every
type reports the same set of PC values"), `_Total` excluded as the parser
drops it. -/
def reportedPCs (records : List TraceRecord) (t : TraceType) : List String :=
  ((records.filter (fun r => r.ttype = t ∧ r.pc ≠ "_Total")).map (fun r => r.pc)).dedup

/-- Success test for an `Except` load result. -/
def loadOk {ε α : Type} : Except ε α → Bool
  | Except.ok _ => true
  | Except.error _ => false

/-! ## computer.py: the Computer state machine -/

/-- Embeds `ComputerStatus` (computer.py lines 28-32). -/
inductive CStatus
  | off
  | on
  deriving DecidableEq, Repr

/-- The observable state of one `Computer` (computer.py): its status, the
absolute simulation time at which the currently armed idle-timer process
will fire (`none` when no live timer), the `__last_auto_shutdown`
bookkeeping, and a counter of auto-shutdown transitions taken (each firing
of the idle timer). -/
structure CompState where
  status : CStatus
  timerFire : Option ℚ
  lastAutoShutdown : Option ℚ
  autoShutdowns : ℕ
  deriving DecidableEq, Repr

/-- The state of a fresh `Computer` created at time `c` (computer.py
`__init__`, line 54): status on, idle timer armed immediately, so the timer
fires at `c + timeout` unless interrupted (`__idle_timer_runner` with
`disable_auto_shutdown` and `fleet_generator` both unset). -/
def compInit (c timeout : ℚ) : CompState :=
  { status := CStatus.on, timerFire := some (c + timeout),
    lastAutoShutdown := none, autoShutdowns := 0 }

/-- The idle timer firing (the body after `yield env.timeout(idle_timeout)`
in `__idle_timer_runner`, lines 109-112): transition to off without
interrupting, record the shutdown instant. -/
def timerFireStep (s : CompState) (ft : ℚ) : CompState :=
  { status := CStatus.off, timerFire := none,
    lastAutoShutdown := some ft, autoShutdowns := s.autoShutdowns + 1 }

/-- Deliver a pending timer firing that is strictly earlier than time `t`
(the discrete-event scheduler runs the timer process before any later
event). -/
def fireBefore (s : CompState) (t : ℚ) : CompState :=
  match s.timerFire with
  | some ft => if ft < t then timerFireStep s ft else s
  | none => s

/-- Embeds `Computer.change_status(status, interrupt_idle_timer)` (lines
61-73): interrupt a live idle timer when asked, and on a transition to on
after an auto shutdown clear the `__last_auto_shutdown` bookkeeping (the
AUTO_SHUTDOWN_TIME sample recorded there is not tracked). -/
def change_status (s : CompState) (st : CStatus) (interrupt : Bool) : CompState :=
  let s1 := if interrupt ∧ s.timerFire ≠ none then { s with timerFire := none } else s
  let s2 := if st = CStatus.on ∧ s1.lastAutoShutdown ≠ none then
              { s1 with lastAutoShutdown := none }
            else s1
  { s2 with status := st }

/-- Embeds one full `Computer.serve()` call (lines 75-87) starting at time
`t` with sampled activity duration `a`, together with the scheduler
behaviour between the previous event and `t` (`fireBefore`): turn the
computer on if needed, interrupt a live idle timer, run the activity burst,
and re-arm a fresh idle timer when the burst ends at `t + a`, which will
fire at `t + a + timeout`. -/
def serveStep (timeout : ℚ) (s : CompState) (t a : ℚ) : CompState :=
  let s0 := fireBefore s t
  let s1 := if s0.status ≠ CStatus.on then change_status s0 CStatus.on true else s0
  let s2 := if s1.timerFire ≠ none then { s1 with timerFire := none } else s1
  { s2 with status := CStatus.on, timerFire := some (t + a + timeout) }

/-- Run a scripted sequence of `serve()` calls, each given as (start time,
activity duration). -/
def runScript (timeout : ℚ) (s : CompState) (script : List (ℚ × ℚ)) : CompState :=
  script.foldl (fun st ev => serveStep timeout st ev.1 ev.2) s

/-- Well-formedness of a serve script relative to the live timer: the next
serve starts no earlier than the current time, its activity is non-negative,
and it starts strictly before the pending idle timer fires, that is, the
wait after the previous burst is strictly less than the idle timeout.
`now` is the end of the previous burst and `ft` the pending fire time. -/
def scriptOk (timeout : ℚ) : ℚ → ℚ → List (ℚ × ℚ) → Bool
  | _, _, [] => true
  | now, ft, (t, a) :: rest =>
    decide (now ≤ t ∧ 0 ≤ a ∧ t < ft) && scriptOk timeout (t + a) (t + a + timeout) rest

/-! ## user.py: the voluntary shutdown decision -/

/-- The mutable state of `User.__indicate_shutdown` (user.py lines 47-48,
73-86): the hour-of-week pair seen last (`None` before the first tick) and
the remaining off frequency. -/
structure UState where
  currentHour : Option (ℤ × ℤ)
  offFreq : ℚ
  deriving DecidableEq, Repr

/-- One tick observed by `__indicate_shutdown`: whether the computer is on
(the `Computer.is_on` attribute is missing from `src/simulation/computer.py`
and is modelled from the spec as "status == on", supplied here as the tick
input), the simulation timestamp, and the uniform draw of
`numpy.random.random()` in [0, 1). -/
structure Tick where
  isOn : Bool
  now : ℚ
  rand : ℚ
  deriving DecidableEq, Repr

/-- Embeds one call of `User.__indicate_shutdown` (user.py lines 73-86).
`freqOf` embeds `off_frequency_for_hour` (activity_distribution.py lines
174-177), the mean of the resolved models `off_fraction`, a deterministic
function of the hour-of-week slot.  Returns whether a voluntary shutdown is
performed, and the successor state. -/
def indicate_shutdown (freqOf : ℤ × ℤ → ℚ) (s : UState) (tk : Tick) : Bool × UState :=
  if !tk.isOn then (false, s)
  else
    let hour := timestamp_to_day tk.now
    let s1 := if s.currentHour ≠ some hour then
                { currentHour := some hour, offFreq := freqOf hour }
              else s
    if s1.offFreq > tk.rand then
      (true, { s1 with offFreq := s1.offFreq - 1 })
    else
      (false, s1)

/-- The number of voluntary shutdowns over a tick sequence, threading the
state. -/
def countShutdowns (freqOf : ℤ × ℤ → ℚ) (s : UState) : List Tick → ℕ
  | [] => 0
  | tk :: rest =>
    let r := indicate_shutdown freqOf s tk
    (if r.1 then 1 else 0) + countShutdowns freqOf r.2 rest

/-- Invariant of the voluntary-shutdown state within one hour-of-week slot
`h0`: either the slot has not been entered yet and no shutdown was counted,
or the off frequency drawn for the slot has been decremented once per
counted shutdown, and any counted shutdown needed a strictly positive
remaining frequency. -/
def shutdownInv (freqOf : ℤ × ℤ → ℚ) (h0 : ℤ × ℤ) (s : UState) (n : ℕ) : Prop :=
  (s.currentHour ≠ some h0 ∧ n = 0)
  ∨ (s.currentHour = some h0 ∧ s.offFreq = freqOf h0 - n
     ∧ (n = 0 ∨ (n : ℚ) - 1 < freqOf h0))

/-! ## Concrete example inputs used by the theorems -/

/-- A complete bucket model: inactivity samples 30 and 640 seconds.  With
`pEx` its timeout search has no bracketed root. -/
def mEx : Model := ⟨[30, 640], [5], [10], [1]⟩

/-- A one-computer grid with the single bucket (Sunday, hour 9). -/
def gT : ModelGrid := [("pc1", [((0, 9), mEx)])]

/-- Configuration for the examples: xmin 35, xmax 50, satisfaction
threshold 600 s, target satisfaction 40 %. -/
def pEx : Params := ⟨35, 50, 600, 40⟩

/-- A grid in which every slot holds an incomplete model (its inactivity
data is empty, as happens when every raw inactivity sample is filtered out
by the `[xmin, xmax]` clamp): the fallback walk can never succeed. -/
def incompleteGet : ℤ × ℤ → Option Model := fun _ => some ⟨[], [5], [], []⟩

/-- A two-computer grid for the merge theorems: computer a has the
inactivity sample 1 at (Sunday, 9) and the sample 3 at (Sunday, 10);
computer b has the sample 2 at (Sunday, 9). -/
def gMerge : ModelGrid :=
  [("a", [((0, 9), ⟨[1], [], [], []⟩), ((0, 10), ⟨[3], [], [], []⟩)]),
   ("b", [((0, 9), ⟨[2], [], [], []⟩)])]

/-- A trace in which all four interval types report the same PC set
(exactly computer a), but the bucket (Sunday, 9) is covered only by the
activity type: loading raises KeyError there. -/
def cxTrace : List TraceRecord :=
  [⟨"a", TraceType.activityIntervals, [⟨0, 9, [5]⟩, ⟨0, 10, [5]⟩]⟩,
   ⟨"a", TraceType.inactivityIntervals, [⟨0, 10, [50]⟩]⟩,
   ⟨"a", TraceType.offIntervals, [⟨0, 10, [10]⟩]⟩,
   ⟨"a", TraceType.offFrequencies, [⟨0, 10, [1]⟩]⟩]

/-! ## Helper lemmas -/

set_option maxRecDepth 8000

/-- The walk loop reads at most `fuel` slots. -/
theorem walkAuxVisits_length_le (get : ℤ × ℤ → Option Model) :
    ∀ (fuel : ℕ) (s : ℤ × ℤ), (walkAuxVisits get fuel s).length ≤ fuel := by
  intro fuel
  induction fuel with
  | zero => intro s; simp [walkAuxVisits]
  | succ n ih =>
    intro s
    simp only [walkAuxVisits]
    cases hg : get (previous_hour s.1 s.2) with
    | none => simpa using Nat.succ_le_succ (ih _)
    | some m =>
      by_cases hc : m.is_complete
      · simp [hc]
      · simpa [hc] using Nat.succ_le_succ (ih _)

/-- The model-building loop succeeds exactly when every bucket key is
covered by all four interval types. -/
theorem buildModels_ok_iff (p : Params) (recs : List TraceRecord) :
    ∀ ks : List (ℤ × ℤ), loadOk (buildModels p recs ks) = true
      ↔ ∀ k ∈ ks, ∀ t : TraceType, bucketData p recs k.1 k.2 t ≠ none := by
  intro ks
  induction ks with
  | nil => simp [buildModels, loadOk]
  | cons k ks ih =>
    cases h1 : bucketData p recs k.1 k.2 TraceType.inactivityIntervals with
    | none =>
      apply iff_of_false
      · simp [buildModels, h1, loadOk]
      · intro hall
        exact hall k (List.mem_cons_self k ks) TraceType.inactivityIntervals h1
    | some iv =>
    cases h2 : bucketData p recs k.1 k.2 TraceType.activityIntervals with
    | none =>
      apply iff_of_false
      · simp [buildModels, h1, h2, loadOk]
      · intro hall
        exact hall k (List.mem_cons_self k ks) TraceType.activityIntervals h2
    | some av =>
    cases h3 : bucketData p recs k.1 k.2 TraceType.offIntervals with
    | none =>
      apply iff_of_false
      · simp [buildModels, h1, h2, h3, loadOk]
      · intro hall
        exact hall k (List.mem_cons_self k ks) TraceType.offIntervals h3
    | some ov =>
    cases h4 : bucketData p recs k.1 k.2 TraceType.offFrequencies with
    | none =>
      apply iff_of_false
      · simp [buildModels, h1, h2, h3, h4, loadOk]
      · intro hall
        exact hall k (List.mem_cons_self k ks) TraceType.offFrequencies h4
    | some fv =>
      have hred : buildModels p recs (k :: ks)
          = (buildModels p recs ks).map (fun g => (k, Model.mk iv av ov fv) :: g) := by
        simp [buildModels, h1, h2, h3, h4]
      have hmap : loadOk ((buildModels p recs ks).map
          (fun g => (k, Model.mk iv av ov fv) :: g)) = loadOk (buildModels p recs ks) := by
        cases buildModels p recs ks <;> rfl
      rw [hred, hmap, ih]
      constructor
      · intro hall k2 hk2 t
        rcases List.mem_cons.mp hk2 with heq | hk2ks
        · subst heq
          cases t <;> simp [h1, h2, h3, h4]
        · exact hall k2 hk2ks t
      · intro hall k2 hk2 t
        exact hall k2 (List.mem_cons_of_mem _ hk2) t

/-- The per-computer parse loop succeeds exactly when each computers model
grid parses. -/
theorem parseTraceLoop_ok_iff (p : Params) (records : List TraceRecord) :
    ∀ pcs : List String, loadOk (parseTraceLoop p records pcs) = true
      ↔ ∀ pc ∈ pcs, loadOk (parse_model p (recordsOf records pc)) = true := by
  intro pcs
  induction pcs with
  | nil => simp [parseTraceLoop, loadOk]
  | cons pc pcs ih =>
    cases hp : parse_model p (recordsOf records pc) with
    | error e =>
      apply iff_of_false
      · simp [parseTraceLoop, hp, loadOk]
      · intro hall
        have := hall pc (List.mem_cons_self pc pcs)
        rw [hp] at this
        cases this
    | ok g =>
      have hred : parseTraceLoop p records (pc :: pcs)
          = (parseTraceLoop p records pcs).map (fun rest => (pc, g) :: rest) := by
        simp [parseTraceLoop, hp]
      have hmap : loadOk ((parseTraceLoop p records pcs).map
          (fun rest => (pc, g) :: rest)) = loadOk (parseTraceLoop p records pcs) := by
        cases parseTraceLoop p records pcs <;> rfl
      rw [hred, hmap, ih]
      constructor
      · intro hall pc2 hpc2
        rcases List.mem_cons.mp hpc2 with heq | hpcs
        · subst heq
          rw [hp]
          rfl
        · exact hall pc2 hpcs
      · intro hall pc2 hpc2
        exact hall pc2 (List.mem_cons_of_mem _ hpc2)

/-- When no slot of the grid holds a complete model, the walk loop returns
`none` whatever its fuel. -/
theorem walkAux_eq_none_of_no_complete (get : ℤ × ℤ → Option Model)
    (hno : ∀ s m, get s = some m → m.is_complete = false) :
    ∀ (fuel : ℕ) (s : ℤ × ℤ), walkAux get fuel s = none := by
  intro fuel
  induction fuel with
  | zero => intro s; rfl
  | succ n ih =>
    intro s
    simp only [walkAux]
    cases hg : get (previous_hour s.1 s.2) with
    | none => exact ih _
    | some m => simp [hno _ _ hg, ih _]

/-! ## Theorems for the claims -/

/-- C7: the claim reads "the post-run validation logs a warning whenever the
per-computer sum USER_SHUTDOWN_TIME + ACTIVITY_TIME + INACTIVITY_TIME
deviates from simulation_time by more than 10%".  The guard of
`Simulation.__validate_results` is the Python chained comparison
`0.99 > val1 > 1.01`, which demands `val1 < 0.99` and `val1 > 1.01`
simultaneously: it is unsatisfiable, so the warning is never logged for any
value of `val1` whatsoever (the code also aggregates over all computers and
uses 1% bounds rather than 10%).  This theorem evaluates the code at every
input, covering the failing ones such as `val1 = 2`. -/
theorem validation_total_time_never_warns (v : ℚ) :
    validation_total_time_warns v = false := by
  simp only [validation_total_time_warns, decide_eq_false_iff_not]
  rintro ⟨h1, h2⟩
  linarith

/-- C9: drawing from an `EmpiricalDistribution` fitted to the one-element
sample `[v]` returns exactly `v` on every call (whatever index
`numpy.random.choice` picks and whatever uniform number the spline path
would use), and the spline fit is not constructed. -/
theorem rvs_singleton_returns_value_without_spline (v : ℚ) (choiceIdx : ℕ) (u : ℚ) :
    rvs [v] choiceIdx u = (some v, false) := by
  simp [rvs, Nat.mod_one]

/-- C4 counterexample: for the model with inactivity samples 30 and 640,
xmin 35, xmax 50, threshold 600 and target 40, the mean-weighted-
satisfaction objective has no root in [35, 50] (first conjunct), the bound
whose satisfaction value is closer to the target is xmax = 50 (second
conjunct), yet `optimal_idle_timeout` returns xmin = 35 (third conjunct):
the code does not return the closer bound. -/
theorem no_root_fallback_not_closer_bound :
    (∀ x : ℚ, 35 ≤ x → x ≤ 50 → fObj [30, 640] 600 40 x ≠ 0)
    ∧ |fObj [30, 640] 600 40 50| < |fObj [30, 640] 600 40 35|
    ∧ optimal_idle_timeout ⟨[30, 640], [], [], []⟩ ⟨35, 50, 600, 40⟩ = some 35 := by
  refine ⟨?_, ?_, ?_⟩
  · intro x h35 h50 h0
    have hw : (0 : ℚ) ≤ weight (640 - x) 60 600 := by
      simp only [weight]; exact le_max_left _ _
    simp only [fObj, weighted_user_satisfaction, List.map_cons, List.map_nil,
      List.sum_cons, List.sum_nil, List.length_cons, List.length_nil,
      Nat.cast_ofNat] at h0
    rw [if_pos (by linarith : (30 : ℚ) < x),
        if_neg (by linarith : ¬ (640 : ℚ) < x)] at h0
    linarith
  · have e1 : fObj [30, 640] 600 40 50 = 1595 / 27 := by
      norm_num [fObj, weighted_user_satisfaction, weight]
    have e2 : fObj [30, 640] 600 40 35 = 60 := by
      norm_num [fObj, weighted_user_satisfaction, weight]
    rw [e1, e2]
    norm_num [abs]
  · norm_num [optimal_idle_timeout, optimal_timeout_search, fObj,
      weighted_user_satisfaction, weight]

/-- C4 amended: when the objective `f` has the same strict sign at both
bounds (exactly the condition under which `scipy.optimize.brentq` raises
ValueError and the fallback branch of `__optimal_timeout_search` runs),
`optimal_idle_timeout` returns `satisfaction_threshold` when
`f(xmax) > f(xmin)` and `xmin` otherwise, each capped at
`satisfaction_threshold` — not the bound whose satisfaction value is closer
to the target. -/
theorem no_root_fallback_returns_threshold_or_xmin (m : Model) (p : Params)
    (hsign : (0 < fObj m.inactivity p.threshold p.target p.xmin
                ∧ 0 < fObj m.inactivity p.threshold p.target p.xmax)
             ∨ (fObj m.inactivity p.threshold p.target p.xmin < 0
                ∧ fObj m.inactivity p.threshold p.target p.xmax < 0)) :
    optimal_idle_timeout m p
      = some (min (if fObj m.inactivity p.threshold p.target p.xmax
                      > fObj m.inactivity p.threshold p.target p.xmin
                   then p.threshold else p.xmin) p.threshold) := by
  simp only [optimal_idle_timeout, optimal_timeout_search, if_pos hsign]
  rfl

/-- Witness for the C4 amended theorem at the concrete counterexample
input: the sign hypothesis holds (both objective values are positive), and
the returned timeout evaluates to xmin = 35. -/
theorem no_root_fallback_returns_threshold_or_xmin_witness :
    optimal_idle_timeout ⟨[30, 640], [], [], []⟩ ⟨35, 50, 600, 40⟩
      = some (min (if fObj [30, 640] 600 40 50 > fObj [30, 640] 600 40 35
                   then (600 : ℚ) else 35) 600) :=
  no_root_fallback_returns_threshold_or_xmin ⟨[30, 640], [], [], []⟩ ⟨35, 50, 600, 40⟩
    (Or.inl ⟨by norm_num [fObj, weighted_user_satisfaction, weight],
             by norm_num [fObj, weighted_user_satisfaction, weight]⟩)

/-- C5: `global_idle_timeout()` does not return a single float.  Evaluated
on the successfully built one-computer distribution `gT`, it returns the
summary triple (mean 35, median 35, squared std 0) of the per-bucket
timeouts — the `TimeoutSummary` structure, not one number (the code builds
`(numpy.mean(timeouts), numpy.median(timeouts), numpy.std(timeouts))`). -/
theorem global_idle_timeout_returns_triple :
    global_idle_timeout gT pEx = ⟨35, 35, 0⟩ := by
  have hdist : distribution_for_hour
      (fun s => adGet [("pc1", [((0, 9), mEx)])] "pc1" s.1 s.2) 0 9 = some mEx := rfl
  have hopt : optimal_idle_timeout mEx pEx = some 35 := by
    norm_num [optimal_idle_timeout, optimal_timeout_search, fObj,
      weighted_user_satisfaction, weight, pEx, mEx]
  have hL : bucketTimeouts gT pEx = [35] := by
    simp [bucketTimeouts, gT, hdist, hopt]
  simp only [global_idle_timeout, hL]
  norm_num [npMean, npMedian, npStdSq, sortAsc, insertSorted]

/-- C1: `removed_inactivity()` does not return the specified quotient.  In
a standard run `_idle_timeout()` is the triple built by
`global_idle_timeout()`; as soon as the INACTIVITY_TIME histogram holds a
sample (here the single sample 100 with the distribution `gT`), the filter
guard `i > self._idle_timeout()` compares a float with the triple and
raises ValueError, so no number is produced at all. -/
theorem removed_inactivity_raises_on_summary_triple :
    removed_inactivity [100] (global_idle_timeout gT pEx)
      = Except.error
          "ValueError: the truth value of an array with more than one element is ambiguous" :=
  rfl

/-- C3 counterexample: on a computer none of whose buckets is complete, one
lookup of slot (0, 0) reads 170 slots — the requested one plus 169 backward
steps, one more than the 168 the claim allows — and the visited list is not
duplicate-free: the slot (6, 23) is read twice (as step 1 and again as step
169, after the walk has wrapped the whole week).  The walk still terminates
and returns "no distribution". -/
theorem fallback_walk_overruns_and_revisits :
    (lookupVisits incompleteGet 0 0).length = 170
    ∧ (lookupVisits incompleteGet 0 0).count ((6 : ℤ), (23 : ℤ)) = 2
    ∧ ¬ (lookupVisits incompleteGet 0 0).Nodup
    ∧ distribution_for_hour incompleteGet 0 0 = none := by
  refine ⟨by decide, by decide, ?_, by decide⟩
  intro h
  exact absurd (List.nodup_iff_count_le_one.mp h ((6 : ℤ), (23 : ℤ))) (by decide)

/-- C3 amended: for every grid and every requested slot, the previous-hour
fallback walk reads at most 170 slots (the requested one plus at most 169
backward steps, the 169th landing on a slot already seen), and when no
complete bucket exists for the computer it returns "no distribution" rather
than looping forever. -/
theorem fallback_walk_bounded_and_total (get : ℤ × ℤ → Option Model) (d h : ℤ) :
    (lookupVisits get d h).length ≤ 170
    ∧ ((∀ s m, get s = some m → m.is_complete = false) →
        distribution_for_hour get d h = none) := by
  constructor
  · simp only [lookupVisits]
    cases hg : get (d, h) with
    | none =>
      simpa using Nat.succ_le_succ (walkAuxVisits_length_le get 169 (d, h))
    | some m =>
      by_cases hc : m.is_complete
      · simp [hc]
      · simpa [hc] using Nat.succ_le_succ (walkAuxVisits_length_le get 169 (d, h))
  · intro hno
    simp only [distribution_for_hour]
    cases hg : get (d, h) with
    | none => exact walkAux_eq_none_of_no_complete get hno 169 (d, h)
    | some m => simp [hno _ _ hg, walkAux_eq_none_of_no_complete get hno 169 (d, h)]

/-- Witness for the C3 amended theorem on the all-incomplete grid: the
lookup of (0, 0) reads at most 170 slots and resolves to "no
distribution". -/
theorem fallback_walk_bounded_and_total_witness :
    (lookupVisits incompleteGet 0 0).length ≤ 170
    ∧ distribution_for_hour incompleteGet 0 0 = none :=
  ⟨(fallback_walk_bounded_and_total incompleteGet 0 0).1,
   (fallback_walk_bounded_and_total incompleteGet 0 0).2
     (fun s m hm => by
        simp only [incompleteGet] at hm
        cases hm
        rfl)⟩

/-- C2: no merge policy ever produces the shared union models the claim
describes, because every merge pass crashes on its first `Model.extend`
call: the list of sibling models is forwarded to
`EmpiricalDistribution.extend`, whose `other.data` attribute access raises
AttributeError (first three conjuncts, evaluated on the two-computer grid
`gMerge` — the load aborts and no bucket receives a merged model).  The
loops do pool along swapped axes relative to the claim before crashing:
for the slot (Sunday, 9) the merge-by-hour loop collects the models of
BOTH computers at that slot (fourth conjunct), while the merge-by-PC loop
collects computer a's own models across its hours (fifth conjunct). -/
theorem merge_passes_crash_with_attribute_error :
    merge_per_hour gMerge
        = Except.error "AttributeError: list object has no attribute data"
    ∧ merge_per_pc gMerge
        = Except.error "AttributeError: list object has no attribute data"
    ∧ merge_per_hour_and_pc gMerge
        = Except.error "AttributeError: list object has no attribute data"
    ∧ slotModels gMerge (0, 9) = [⟨[1], [], [], []⟩, ⟨[2], [], [], []⟩]
    ∧ ((gMerge.lookup "a").map (fun bs => bs.map Prod.snd))
        = some [⟨[1], [], [], []⟩, ⟨[3], [], [], []⟩] :=
  ⟨rfl, rfl, rfl, rfl, rfl⟩

/-- One serve call keeps the invariant: on a machine that is on, has no
recorded auto shutdown and a pending timer firing strictly after the serve
instant, a serve interrupts the timer and re-arms it at burst end plus
timeout. -/
theorem serveStep_keeps_on (timeout t a ft : ℚ) (s : CompState)
    (hst : s.status = CStatus.on) (hfire : s.timerFire = some ft) (hlt : t < ft) :
    serveStep timeout s t a
      = { status := CStatus.on, timerFire := some (t + a + timeout),
          lastAutoShutdown := s.lastAutoShutdown, autoShutdowns := s.autoShutdowns } := by
  have hnf : ¬ ft < t := not_lt.mpr (le_of_lt hlt)
  simp [serveStep, fireBefore, hfire, hnf, hst]

/-- Running a well-formed script from an on state with a pending timer
never fires the timer. -/
theorem runScript_keeps_on (timeout : ℚ) :
    ∀ (script : List (ℚ × ℚ)) (now ft : ℚ) (s : CompState),
      s.status = CStatus.on → s.autoShutdowns = 0 → s.timerFire = some ft →
      scriptOk timeout now ft script = true →
      (runScript timeout s script).status = CStatus.on
        ∧ (runScript timeout s script).autoShutdowns = 0 := by
  intro script
  induction script with
  | nil =>
    intro now ft s hst hauto hfire _
    exact ⟨hst, hauto⟩
  | cons ev rest ih =>
    obtain ⟨t, a⟩ := ev
    intro now ft s hst hauto hfire hok
    simp only [scriptOk, Bool.and_eq_true, decide_eq_true_eq] at hok
    obtain ⟨⟨hnt, hna, hlt⟩, hrest⟩ := hok
    rw [runScript, List.foldl_cons]
    rw [show serveStep timeout s (t, a).1 (t, a).2 = serveStep timeout s t a from rfl]
    rw [serveStep_keeps_on timeout t a ft s hst hfire hlt]
    exact ih (t + a) (t + a + timeout) _ rfl hauto rfl hrest

/-- C6 counterexample: in `cxTrace` every interval type reports exactly the
PC set {a} (first four conjuncts), yet the load fails: the bucket
(Sunday, 9) is covered by the activity type only, and reading its
inactivity entry raises KeyError (the parser performs no PC-set check at
all, so equal PC sets do not let the load "succeed past this check"). -/
theorem parse_trace_fails_with_equal_pc_sets :
    reportedPCs cxTrace TraceType.activityIntervals = ["a"]
    ∧ reportedPCs cxTrace TraceType.inactivityIntervals = ["a"]
    ∧ reportedPCs cxTrace TraceType.offIntervals = ["a"]
    ∧ reportedPCs cxTrace TraceType.offFrequencies = ["a"]
    ∧ parse_trace pEx cxTrace = Except.error "KeyError: InactivityIntervals" :=
  ⟨rfl, rfl, rfl, rfl, rfl⟩

/-- C6 amended: there is no computer-id-set validation; instead the load
succeeds if and only if, for every retained computer, every (day, hour)
bucket mentioned by any of its interval types is covered by all four
interval types.  Equal reported PC sets are neither checked nor sufficient
(see the counterexample), and the failure is an uncaught KeyError
propagating from `__parse_model`, fatal before any simulation runs. -/
theorem trace_load_ok_iff_bucket_type_coverage (p : Params) (records : List TraceRecord) :
    loadOk (parse_trace p records) = true
      ↔ ∀ pc ∈ tracePCs records, ∀ k ∈ bucketKeys (recordsOf records pc),
          ∀ t : TraceType, bucketData p (recordsOf records pc) k.1 k.2 t ≠ none := by
  rw [parse_trace, parseTraceLoop_ok_iff]
  constructor
  · intro hall pc hpc k hk t
    exact (buildModels_ok_iff p (recordsOf records pc) _).mp (hall pc hpc) k hk t
  · intro hall pc hpc
    exact (buildModels_ok_iff p (recordsOf records pc) _).mpr (hall pc hpc)

/-- Witness for the C6 amended theorem at the concrete trace `cxTrace`:
the load-success criterion instantiated there (where both sides are false:
the bucket (Sunday, 9) lacks three of the four types). -/
theorem trace_load_ok_iff_bucket_type_coverage_witness :
    loadOk (parse_trace pEx cxTrace) = true
      ↔ ∀ pc ∈ tracePCs cxTrace, ∀ k ∈ bucketKeys (recordsOf cxTrace pc),
          ∀ t : TraceType, bucketData pEx (recordsOf cxTrace pc) k.1 k.2 t ≠ none :=
  trace_load_ok_iff_bucket_type_coverage pEx cxTrace

/-- C8: starting from a freshly created Computer (idle timer armed at
creation time `c`), any scripted sequence of `serve()` calls in which every
wait is strictly less than the idle timeout (each serve starts strictly
before the pending timer fires — `scriptOk`) never transitions the
Computer to the off state: every `serve()` finds the timer task alive and
interrupts it before re-arming a fresh one, so the auto-shutdown transition
never fires (the auto-shutdown counter stays 0 and the status stays on). -/
theorem serve_within_timeout_never_auto_shutdown (timeout c : ℚ)
    (script : List (ℚ × ℚ))
    (hok : scriptOk timeout c (c + timeout) script = true) :
    (runScript timeout (compInit c timeout) script).status = CStatus.on
    ∧ (runScript timeout (compInit c timeout) script).autoShutdowns = 0 :=
  runScript_keeps_on timeout script c (c + timeout) (compInit c timeout)
    rfl rfl rfl hok

/-- Witness for C8: a computer created at time 0 with timeout 300, served
at time 100 for 50 seconds and again at time 400 (a wait of 250 < 300
after the burst ends at 150), never turns off. -/
theorem serve_within_timeout_never_auto_shutdown_witness :
    scriptOk 300 0 (0 + 300) [(100, 50), (400, 10)] = true
    ∧ (runScript 300 (compInit 0 300) [(100, 50), (400, 10)]).status = CStatus.on
    ∧ (runScript 300 (compInit 0 300) [(100, 50), (400, 10)]).autoShutdowns = 0 := by
  have hok : scriptOk 300 0 (0 + 300) [(100, 50), (400, 10)] = true := by
    norm_num [scriptOk]
  exact ⟨hok, serve_within_timeout_never_auto_shutdown 300 0 _ hok⟩

/-- One `__indicate_shutdown` call keeps the shutdown invariant, counting
the performed shutdown when there is one. -/
theorem indicate_shutdown_keeps_inv (freqOf : ℤ × ℤ → ℚ) (h0 : ℤ × ℤ)
    (s : UState) (n : ℕ) (tk : Tick)
    (hh : timestamp_to_day tk.now = h0) (hr : 0 ≤ tk.rand)
    (hinv : shutdownInv freqOf h0 s n) :
    shutdownInv freqOf h0 (indicate_shutdown freqOf s tk).2
      (n + (if (indicate_shutdown freqOf s tk).1 then 1 else 0)) := by
  by_cases hon : tk.isOn
  · rcases hinv with ⟨hcur, hn⟩ | ⟨hcur, hfreq, hpos⟩
    · have hne : s.currentHour ≠ some h0 := hcur
      by_cases hgt : freqOf h0 > tk.rand
      · have hres : indicate_shutdown freqOf s tk
            = (true, { currentHour := some h0, offFreq := freqOf h0 - 1 }) := by
          simp [indicate_shutdown, hon, hh, hne, hgt]
        rw [hres]
        show shutdownInv freqOf h0 { currentHour := some h0, offFreq := freqOf h0 - 1 } (n + 1)
        subst hn
        refine Or.inr ⟨rfl, by push_cast; ring, Or.inr ?_⟩
        push_cast
        linarith
      · have hres : indicate_shutdown freqOf s tk
            = (false, { currentHour := some h0, offFreq := freqOf h0 }) := by
          simp [indicate_shutdown, hon, hh, hne, hgt]
        rw [hres]
        show shutdownInv freqOf h0 { currentHour := some h0, offFreq := freqOf h0 } (n + 0)
        subst hn
        exact Or.inr ⟨rfl, by push_cast; ring, Or.inl rfl⟩
    · have hne : ¬ s.currentHour ≠ some h0 := by simp [hcur]
      by_cases hgt : s.offFreq > tk.rand
      · have hres : indicate_shutdown freqOf s tk
            = (true, { s with offFreq := s.offFreq - 1 }) := by
          simp [indicate_shutdown, hon, hh, hne, hgt]
        rw [hres]
        show shutdownInv freqOf h0 { s with offFreq := s.offFreq - 1 } (n + 1)
        refine Or.inr ⟨hcur, by rw [hfreq]; push_cast; ring, Or.inr ?_⟩
        rw [hfreq] at hgt
        push_cast
        linarith
      · have hres : indicate_shutdown freqOf s tk = (false, s) := by
          simp [indicate_shutdown, hon, hh, hne, hgt]
        rw [hres]
        show shutdownInv freqOf h0 s (n + 0)
        rw [Nat.add_zero]
        exact Or.inr ⟨hcur, hfreq, hpos⟩
  · have hres : indicate_shutdown freqOf s tk = (false, s) := by
      simp [indicate_shutdown, hon]
    rw [hres]
    show shutdownInv freqOf h0 s (n + 0)
    rw [Nat.add_zero]
    exact hinv

/-- Under the shutdown invariant, the total count over in-slot ticks stays
below the ceiling of the non-negative part of the slot frequency. -/
theorem countShutdowns_le_of_inv (freqOf : ℤ × ℤ → ℚ) (h0 : ℤ × ℤ) :
    ∀ (ticks : List Tick) (s : UState) (n : ℕ),
      (∀ tk ∈ ticks, timestamp_to_day tk.now = h0 ∧ 0 ≤ tk.rand) →
      shutdownInv freqOf h0 s n →
      n + countShutdowns freqOf s ticks ≤ (⌈max (freqOf h0) 0⌉).toNat := by
  intro ticks
  induction ticks with
  | nil =>
    intro s n _ hinv
    rw [countShutdowns, Nat.add_zero]
    rcases hinv with ⟨_, hn⟩ | ⟨_, _, hpos⟩
    · simp [hn]
    · rcases hpos with hn | hlt
      · simp [hn]
      · have hceil : (n : ℤ) ≤ ⌈max (freqOf h0) 0⌉ := by
          have h1 : ((n : ℤ) - 1 : ℚ) < max (freqOf h0) 0 :=
            lt_of_lt_of_le (by push_cast; linarith) (le_max_left _ _)
          have h2 : (n : ℤ) - 1 < ⌈max (freqOf h0) 0⌉ := by
            rw [Int.lt_ceil]
            push_cast at h1 ⊢
            linarith
          omega
        have hnn : (0 : ℤ) ≤ ⌈max (freqOf h0) 0⌉ :=
          Int.ceil_nonneg (le_max_right _ _)
        omega
  | cons tk ticks ih =>
    intro s n hall hinv
    have htk := hall tk (List.mem_cons_self tk ticks)
    have hweak : ∀ tk2 ∈ ticks, timestamp_to_day tk2.now = h0 ∧ 0 ≤ tk2.rand :=
      fun tk2 h2 => hall tk2 (List.mem_cons_of_mem _ h2)
    have hstep := indicate_shutdown_keeps_inv freqOf h0 s n tk htk.1 htk.2 hinv
    have := ih (indicate_shutdown freqOf s tk).2
      (n + (if (indicate_shutdown freqOf s tk).1 then 1 else 0)) hweak hstep
    rw [countShutdowns]
    omega

/-- C10: over any sequence of ticks that all fall in the hour-of-week slot
`h0` (with the uniform draws non-negative, as `numpy.random.random` yields
values in [0, 1)), starting from a state that has not entered the slot yet,
the number of voluntary shutdowns `__indicate_shutdown` grants is bounded by
the ceiling of the non-negative part of the off-frequency value drawn at the
slots first on-tick: each shutdown requires the remaining frequency to
exceed a fresh uniform draw and decrements it by one, so once the remaining
frequency is at most 0 no further shutdown occurs until the slot changes. -/
theorem voluntary_shutdowns_bounded_by_ceil_frequency
    (freqOf : ℤ × ℤ → ℚ) (h0 : ℤ × ℤ) (ticks : List Tick) (s : UState)
    (hall : ∀ tk ∈ ticks, timestamp_to_day tk.now = h0 ∧ 0 ≤ tk.rand)
    (hfresh : s.currentHour ≠ some h0) :
    countShutdowns freqOf s ticks ≤ (⌈max (freqOf h0) 0⌉).toNat := by
  have := countShutdowns_le_of_inv freqOf h0 ticks s 0 hall (Or.inl ⟨hfresh, rfl⟩)
  omega

/-- Witness for C10: with a drawn frequency of 5/2 for the slot of
timestamp 0 and four on-ticks at timestamp 0, at most ⌈5/2⌉ = 3 voluntary
shutdowns are granted. -/
theorem voluntary_shutdowns_bounded_by_ceil_frequency_witness :
    countShutdowns (fun _ => 5/2) ⟨none, 0⟩
        [⟨true, 0, 0⟩, ⟨true, 0, 0⟩, ⟨true, 0, 0⟩, ⟨true, 0, 1/2⟩]
      ≤ (⌈max ((5 : ℚ)/2) 0⌉).toNat :=
  voluntary_shutdowns_bounded_by_ceil_frequency (fun _ => 5/2) (timestamp_to_day 0)
    [⟨true, 0, 0⟩, ⟨true, 0, 0⟩, ⟨true, 0, 0⟩, ⟨true, 0, 1/2⟩] ⟨none, 0⟩
    (by
      intro tk htk
      fin_cases htk <;> exact ⟨rfl, by norm_num⟩)
    (by simp)

end PowerSim
